import Mathlib

/-!
Shallow embedding of the foreman agent (willdady/foreman) for verifying the
claims of its natural-language specification.

The embedding follows the Rust sources:
 - `src/tracking.rs` : `JobStatus`, `TrackedJob`, `JobTracker` (insert,
   update_status, queries) and the async channel wrapper `update_job_status`,
   which discards the tracker's inner `Result`.
 - `src/network.rs`  : `PortManager` with `u16` arithmetic (the increment in
   `reserve_port` wraps modulo 2^16, as Rust release builds do).
 - `src/main.rs`     : the control-server poller admission check, the
   `GET /job/:job_id` handler and the `PUT /job/:job_id` handler.
 - `src/job.rs`      : `DockerJob` / `Job`.

Wall-clock time (`SystemTime::now()`) is passed in explicitly as a `Nat`
timestamp; `f64` progress values are modelled as `Rat` (no float arithmetic is
performed on them by the program, only assignment and parsing).
-/

/-- `job.rs`: HTTP method of a docker job. -/
inductive DockerJobHTTPMethod
  | POST
  | PUT
deriving DecidableEq, Repr

/-- `job.rs`: the `DockerJob` payload. The opaque JSON `body` is modelled as a
string. -/
structure DockerJob where
  id : String
  image : String
  port : Nat
  command : Option (List String)
  body : String
  method : DockerJobHTTPMethod
  env : Option (List (String × String))
  callback_url : String
  always_pull : Bool
deriving DecidableEq, Repr

/-- `job.rs`: the tagged `Job` variant (only `Docker` exists today). -/
inductive Job
  | docker (d : DockerJob)
deriving DecidableEq, Repr

/-- The id bound by `let Job::Docker(DockerJob { ref id, .. }) = job` in
`JobTracker::insert`. -/
def Job.jobId : Job → String
  | .docker d => d.id

/-- The callback URL read by the PUT handler. -/
def Job.callbackUrl : Job → String
  | .docker d => d.callback_url

/-- The body returned by the GET handler. -/
def Job.jobBody : Job → String
  | .docker d => d.body

/-- `tracking.rs`: job lifecycle status. -/
inductive JobStatus
  | Pending
  | Running
  | Completed
  | Stopped
  | Finished
deriving DecidableEq, Repr

/-- ASCII uppercase of one character (what `str::to_uppercase` does on the
ASCII status names; defined structurally so that concrete evaluations
reduce). -/
def charUpper (c : Char) : Char :=
  if h : 97 ≤ c.toNat ∧ c.toNat ≤ 122 then
    Char.ofNatAux (c.toNat - 32) (Or.inl (by omega))
  else c

/-- Uppercase a string character by character. -/
def upperStr (s : String) : String := ⟨s.data.map charUpper⟩

/-- `tracking.rs`: `impl FromStr for JobStatus` (uppercases, then matches). -/
def JobStatus.from_str (s : String) : Except String JobStatus :=
  match upperStr s with
  | "PENDING" => .ok .Pending
  | "RUNNING" => .ok .Running
  | "COMPLETED" => .ok .Completed
  | "STOPPED" => .ok .Stopped
  | "FINISHED" => .ok .Finished
  | _ => .error "Unknown job status"

/-- `tracking.rs`: a `TrackedJob` — the job plus lifecycle fields. -/
structure TrackedJob where
  job : Job
  status : JobStatus
  progress : Rat
  start_time : Nat
  completed_time : Option Nat
  stopped_time : Option Nat
  finished_time : Option Nat
deriving DecidableEq, Repr

/-- Association-list insert with `HashMap::insert` semantics: replaces the
binding of an existing key, otherwise appends. -/
def assocInsert (l : List (String × TrackedJob)) (id : String) (tj : TrackedJob) :
    List (String × TrackedJob) :=
  match l with
  | [] => [(id, tj)]
  | p :: rest => if p.1 = id then (id, tj) :: rest else p :: assocInsert rest id tj

/-- Association-list lookup with `HashMap::get` semantics. -/
def lookupJob (l : List (String × TrackedJob)) (id : String) : Option TrackedJob :=
  match l with
  | [] => none
  | p :: rest => if p.1 = id then some p.2 else lookupJob rest id

/-- `tracking.rs`: the `JobTracker` registry (`HashMap<String, TrackedJob>`,
modelled as an association list). -/
structure JobTracker where
  jobs : List (String × TrackedJob)
deriving DecidableEq, Repr

/-- `JobTracker::new`. -/
def JobTracker.new : JobTracker := ⟨[]⟩

/-- `JobTracker::insert`: builds a fresh Pending `TrackedJob` and inserts it
into the map under the job's id — `HashMap::insert` replaces any existing
entry. `now` stands for `SystemTime::now()`. -/
def JobTracker.insert (t : JobTracker) (job : Job) (now : Nat) : JobTracker :=
  ⟨assocInsert t.jobs job.jobId
    { job := job
      status := .Pending
      progress := 0
      start_time := now
      completed_time := none
      stopped_time := none
      finished_time := none }⟩

/-- `JobTracker::get_job`. -/
def JobTracker.get_job (t : JobTracker) (id : String) : Option TrackedJob :=
  lookupJob t.jobs id

/-- The body of `JobTracker::update_status` once the job is found: stamp the
matching `*_time` field, set the status, and overwrite progress if supplied. -/
def applyStatusChange (tj : TrackedJob) (status : JobStatus) (progress : Option Rat)
    (now : Nat) : TrackedJob :=
  let tj1 :=
    match status with
    | .Completed => { tj with completed_time := some now }
    | .Stopped => { tj with stopped_time := some now }
    | .Finished => { tj with finished_time := some now }
    | _ => tj
  let tj2 := { tj1 with status := status }
  match progress with
  | some p => { tj2 with progress := p }
  | none => tj2

/-- `JobTracker::update_status`: applies `applyStatusChange` to a tracked job
(there is no transition validation — the source carries a TODO comment noting
that invalid transitions such as Completed to Running are not prevented);
fails with "Invalid job id" when the id is not tracked. -/
def JobTracker.update_status (t : JobTracker) (id : String) (status : JobStatus)
    (progress : Option Rat) (now : Nat) : Except String JobTracker :=
  match lookupJob t.jobs id with
  | some tj => .ok ⟨assocInsert t.jobs id (applyStatusChange tj status progress now)⟩
  | none => .error "Invalid job id"

/-- Modelled from the spec: the Tracker command `CountRunning() -> usize`
(section 4.1) used by the poller admission check in `main.rs`; the
`count_running_jobs` method itself is not among the files under `src/`, so it
is modelled as the number of tracked jobs whose status is Running. -/
def JobTracker.count_running_jobs (t : JobTracker) : Nat :=
  (t.jobs.filter fun p => decide (p.2.status = .Running)).length

/-- Filter body of `JobTracker::get_stopped_and_expired_job_ids`; the outer
`Option` is `none` exactly when the source would panic on
`locked_job.stopped_time.unwrap()` for a Stopped job with no stamp. A
stopped-in-the-future stamp is skipped, as `duration_since(..).ok()?` skips
it. -/
def stoppedExpiredAux (now timeout : Nat) :
    List (String × TrackedJob) → Option (List String)
  | [] => some []
  | (id, tj) :: rest =>
    if tj.status = .Stopped then
      match tj.stopped_time with
      | none => none
      | some st =>
        match stoppedExpiredAux now timeout rest with
        | none => none
        | some ids =>
          if now < st then some ids
          else if now - st > timeout then some (id :: ids)
          else some ids
    else stoppedExpiredAux now timeout rest

/-- `JobTracker::get_stopped_and_expired_job_ids` (`now` and the
`job_removal_timeout` setting passed explicitly). -/
def JobTracker.get_stopped_and_expired_job_ids (t : JobTracker) (now timeout : Nat) :
    Option (List String) :=
  stoppedExpiredAux now timeout t.jobs

/-- Tracker commands relevant to the registry state (`JobTrackerCommand`
mutating variants). -/
inductive TrackerOp
  | insert (job : Job)
  | updateStatus (id : String) (status : JobStatus) (progress : Option Rat)

/-- One step of the job tracking task in `main.rs`: `Insert` calls
`JobTracker::insert`; `UpdateStatus` calls `JobTracker::update_status`, whose
error leaves the registry unchanged (the `Result` is sent back over the
channel). -/
def applyOp (t : JobTracker) (op : TrackerOp) (now : Nat) : JobTracker :=
  match op with
  | .insert j => t.insert j now
  | .updateStatus id status progress =>
    match t.update_status id status progress now with
    | .ok t' => t'
    | .error _ => t

/-- Run a timestamped command sequence against the tracker. -/
def runOps (t : JobTracker) : List (TrackerOp × Nat) → JobTracker
  | [] => t
  | (op, now) :: rest => runOps (applyOp t op now) rest

/-- The status the registry currently records for `id`. -/
def statusOf (t : JobTracker) (id : String) : Option JobStatus :=
  (lookupJob t.jobs id).map (·.status)

/-- The progress the registry currently records for `id`. -/
def progressOf (t : JobTracker) (id : String) : Option Rat :=
  (lookupJob t.jobs id).map (·.progress)

/-- The lifecycle stamp of a terminal status (arbitrary for the others). -/
def stampOf (s : JobStatus) (tj : TrackedJob) : Option Nat :=
  match s with
  | .Completed => tj.completed_time
  | .Stopped => tj.stopped_time
  | .Finished => tj.finished_time
  | _ => none

/-- Whether the registry currently holds `id` with the stamp of `s` set. -/
def stampIsSome (t : JobTracker) (id : String) (s : JobStatus) : Bool :=
  match lookupJob t.jobs id with
  | some tj => (stampOf s tj).isSome
  | none => false

/-- Whether the registry currently holds `id` with status `s`. -/
def statusIs (t : JobTracker) (id : String) (s : JobStatus) : Bool :=
  match lookupJob t.jobs id with
  | some tj => decide (tj.status = s)
  | none => false

/-- `id` has status `s` in some state visited while running `ops` from `t`
(including `t` itself and the final state). -/
def everHad (t : JobTracker) (ops : List (TrackerOp × Nat)) (id : String)
    (s : JobStatus) : Bool :=
  match ops with
  | [] => statusIs t id s
  | (op, now) :: rest => statusIs t id s || everHad (applyOp t op now) rest id s

/-- The run never Inserts an id that is already tracked at that point. -/
def noReinsert (t : JobTracker) : List (TrackerOp × Nat) → Bool
  | [] => true
  | (op, now) :: rest =>
    match op with
    | .insert j => (lookupJob t.jobs j.jobId).isNone && noReinsert (applyOp t op now) rest
    | .updateStatus .. => noReinsert (applyOp t op now) rest

/-- Every tracked job that is Stopped carries a `stopped_time` stamp. -/
def stoppedStampOk (t : JobTracker) : Bool :=
  t.jobs.all fun p => !(decide (p.2.status = .Stopped)) || p.2.stopped_time.isSome

/-- `tracking.rs`, module-level `update_job_status`: sends an `UpdateStatus`
command and awaits the reply, but only checks that the reply channel itself
worked — `if let Err(e) = resp_rx.await` — so the tracker's inner
`Result<()>` is discarded and the function returns `Ok(())` whether the
tracker reported an error or not. Modelled with a live channel: the result is
`ok` in both cases, and the registry after the command is returned alongside. -/
def update_job_status (t : JobTracker) (id : String) (status : JobStatus)
    (progress : Option Rat) (now : Nat) : Except String Unit × JobTracker :=
  match t.update_status id status progress now with
  | .ok t' => (.ok (), t')
  | .error _ => (.ok (), t)

/-- Response bodies of the `GET /job/:job_id` handler in `main.rs`. -/
inductive GetBody
  | errNotFound
  | errRefuseCompleted
  | errUpdateFailed
  | payload (id : String) (body : String)
deriving DecidableEq, Repr

/-- `main.rs`, `GET /job/:job_id` handler: 404 when untracked; 403 when
Completed; for Pending, transition to Running (progress 0.0) through
`update_job_status` and then — like Running, Stopped and Finished — answer 200
with the job's id and body. Returns (status code, body) and the registry after
the request. -/
def get_job_handler (job_id : String) (t : JobTracker) (now : Nat) :
    (Nat × GetBody) × JobTracker :=
  match lookupJob t.jobs job_id with
  | none => ((404, .errNotFound), t)
  | some tj =>
    match tj.status with
    | .Completed => ((403, .errRefuseCompleted), t)
    | .Pending =>
      match update_job_status t tj.job.jobId .Running (some 0) now with
      | (.error _, t') => ((500, .errUpdateFailed), t')
      | (.ok _, t') => ((200, .payload tj.job.jobId tj.job.jobBody), t')
    | _ => ((200, .payload tj.job.jobId tj.job.jobBody), t)

/-- Externally visible effects of a `PUT /job/:job_id` request, in order. -/
inductive PutEffect
  | callbackPut (url : String)
  | trackerUpdate (id : String) (status : JobStatus) (progress : Option Rat)
deriving DecidableEq, Repr

/-- Result of the `PUT /job/:job_id` handler: HTTP status code, response
message, the registry after the request, and the ordered effect trace. -/
structure PutOutcome where
  code : Nat
  msg : String
  tracker : JobTracker
  trace : List PutEffect
deriving DecidableEq, Repr

/-- `main.rs`, `PUT /job/:job_id` handler. Inputs model the request and the
environment: `status_header` is the raw `x-foreman-job-status` value (or
absent); `progress_header` is `none` when `x-foreman-job-progress` is absent
and `some none` when present but unparseable (the code then takes
`unwrap_or(0.0)`); `t_get` is the registry the `GetJob` command is served
from and `t_upd` the registry the later `UpdateStatus` command is served from
(the tracker actor may process other commands in between); `callback_ok`
states whether the forwarded PUT to the callback URL succeeded at the HTTP
client level. -/
def put_job_handler (job_id : String) (status_header : Option String)
    (progress_header : Option (Option Rat)) (t_get t_upd : JobTracker)
    (callback_ok : Bool) (now : Nat) : PutOutcome :=
  match status_header with
  | none => ⟨400, "Missing x-foreman-job-status header", t_upd, []⟩
  | some s =>
    match JobStatus.from_str s with
    | .error e => ⟨400, "Invalid header x-foreman-job-status: " ++ e, t_upd, []⟩
    | .ok status =>
      let progress : Rat :=
        (match progress_header with
         | some op => op
         | none => none).getD 0
      match lookupJob t_get.jobs job_id with
      | none => ⟨404, "Job not found", t_upd, []⟩
      | some tj =>
        let cb := tj.job.callbackUrl
        if callback_ok then
          match update_job_status t_upd job_id status (some progress) now with
          | (.error _, t') =>
            ⟨500, "Failed to update job status", t',
              [.callbackPut cb, .trackerUpdate job_id status (some progress)]⟩
          | (.ok _, t') =>
            ⟨200, "OK", t',
              [.callbackPut cb, .trackerUpdate job_id status (some progress)]⟩
        else ⟨400, "Failed to send PUT request", t_upd, [.callbackPut cb]⟩

/-- Messages a poller iteration emits (sleeping counts as an action so that
"sleep and re-check" iterations are visible). -/
inductive PollerAction
  | sendInsert (j : Job)
  | sendExecute (j : Job)
  | sleep
deriving DecidableEq, Repr

/-- `main.rs`, one iteration of the control-server poller loop: the admission
check is `running_jobs_count > max_concurrent_jobs` (strictly greater — the
source only throttles once the count exceeds the maximum); otherwise the
control plane is polled (`jobs_result`, an error when the HTTP fetch fails)
and each received job produces an Insert followed by an Execute; every path
ends by sleeping `poll_frequency`. -/
def control_server_poller_iteration (running_jobs_count max_concurrent_jobs : Nat)
    (jobs_result : Except String (List Job)) : List PollerAction :=
  if running_jobs_count > max_concurrent_jobs then [.sleep]
  else
    match jobs_result with
    | .ok jobs => (jobs.flatMap fun j => [.sendInsert j, .sendExecute j]) ++ [.sleep]
    | .error _ => [.sleep]

/-- `network.rs`: `PortManagerError`. -/
inductive PortManagerError
  | OutOfPorts
  | InvalidPortRange
  | CanNotReleaseUnreservedPort (port : Nat)
deriving DecidableEq, Repr

/-- `network.rs`: the `PortManager` (ports are `u16` values, kept as `Nat`
with wrapping applied where the source's arithmetic overflows). -/
structure PortManager where
  start_port : Nat
  end_port : Nat
  reserved_ports : List Nat
deriving DecidableEq, Repr

/-- `PortManager::new` with its defaults 49152 and 65535. -/
def PortManager.new (start_port end_port : Option Nat) :
    Except PortManagerError PortManager :=
  let sp := start_port.getD 49152
  let ep := end_port.getD 65535
  if ep < sp then .error .InvalidPortRange
  else .ok ⟨sp, ep, []⟩

/-- The `while self.reserved_ports.contains(&port) { port += 1 }` loop of
`reserve_port`. `port` is a `u16`, so the increment wraps modulo 2^16 (Rust
release semantics; a debug build would abort at the same point). The fuel
covers every `u16` once; `none` models the loop not terminating, which needs
all 65536 values reserved. -/
def reserveLoop (reserved : List Nat) (port : Nat) : Nat → Option Nat
  | 0 => none
  | fuel + 1 =>
    if port ∈ reserved then reserveLoop reserved ((port + 1) % 65536) fuel
    else some port

/-- `PortManager::reserve_port`: scan upward from `start_port` for an
unreserved port, then fail with `OutOfPorts` iff the port found lies past
`end_port`, else reserve and return it. -/
def PortManager.reserve_port (pm : PortManager) :
    Option (Except PortManagerError (Nat × PortManager)) :=
  match reserveLoop pm.reserved_ports pm.start_port 65536 with
  | none => none
  | some port =>
    if port > pm.end_port then some (.error .OutOfPorts)
    else some (.ok (port, { pm with reserved_ports := port :: pm.reserved_ports }))

/-- `PortManager::release_port`. -/
def PortManager.release_port (pm : PortManager) (port : Nat) :
    Except PortManagerError PortManager :=
  if port ∈ pm.reserved_ports then
    .ok { pm with reserved_ports := pm.reserved_ports.erase port }
  else .error (.CanNotReleaseUnreservedPort port)

/-- A sample job used in concrete evaluations. -/
def jobA : Job :=
  .docker ⟨"a", "alpine:latest", 8080, none, "body-a", .POST, none, "http://cb/a", false⟩

/-- A second sample job. -/
def jobB : Job :=
  .docker ⟨"b", "alpine:latest", 8081, none, "body-b", .POST, none, "http://cb/b", false⟩

/-- A third sample job. -/
def jobC : Job :=
  .docker ⟨"c", "alpine:latest", 8082, none, "body-c", .POST, none, "http://cb/c", false⟩

example : statusOf (JobTracker.new.insert jobA 0) "a" = some .Pending := by decide

/-! ## Basic lemmas about the association-list registry -/

theorem lookup_assocInsert (l : List (String × TrackedJob)) (id : String)
    (tj : TrackedJob) (id' : String) :
    lookupJob (assocInsert l id tj) id' = if id' = id then some tj else lookupJob l id' := by
  induction l with
  | nil =>
    simp only [assocInsert, lookupJob]
    by_cases hq : id' = id
    · subst hq; simp
    · rw [if_neg (Ne.symm hq), if_neg hq]
  | cons p rest ih =>
    simp only [assocInsert]
    by_cases hp : p.1 = id
    · rw [if_pos hp]
      simp only [lookupJob]
      by_cases hq : id' = id
      · subst hq; rw [if_pos rfl, if_pos rfl]
      · have hpq : ¬p.1 = id' := fun h => hq (hp.symm.trans h).symm
        rw [if_neg (Ne.symm hq), if_neg hq, if_neg hpq]
    · rw [if_neg hp]
      simp only [lookupJob]
      by_cases hq : p.1 = id'
      · have hne : ¬id' = id := fun h => hp (hq.trans h)
        rw [if_pos hq, if_neg hne, if_pos hq]
      · rw [if_neg hq, ih]
        by_cases hr : id' = id
        · rw [if_pos hr, if_pos hr]
        · rw [if_neg hr, if_neg hr, if_neg hq]

theorem assocInsert_assocInsert_self (l : List (String × TrackedJob)) (id : String)
    (x y : TrackedJob) :
    assocInsert (assocInsert l id x) id y = assocInsert l id y := by
  induction l with
  | nil => simp [assocInsert]
  | cons p rest ih =>
    by_cases hp : p.1 = id
    · simp [assocInsert, hp]
    · simp [assocInsert, hp, ih]

theorem mem_assocInsert (l : List (String × TrackedJob)) (id : String) (tj : TrackedJob)
    (q : String × TrackedJob) (hq : q ∈ assocInsert l id tj) : q = (id, tj) ∨ q ∈ l := by
  induction l with
  | nil => simpa [assocInsert] using hq
  | cons p rest ih =>
    by_cases hp : p.1 = id
    · simp [assocInsert, hp] at hq
      rcases hq with h | h
      · exact .inl h
      · exact .inr (List.mem_cons_of_mem _ h)
    · simp [assocInsert, hp] at hq
      rcases hq with h | h
      · exact .inr (by simp [h])
      · rcases ih h with h' | h'
        · exact .inl h'
        · exact .inr (List.mem_cons_of_mem _ h')

theorem lookupJob_mem (l : List (String × TrackedJob)) (id : String) (tj : TrackedJob)
    (h : lookupJob l id = some tj) : (id, tj) ∈ l := by
  induction l with
  | nil => simp [lookupJob] at h
  | cons p rest ih =>
    by_cases hp : p.1 = id
    · simp [lookupJob, hp] at h
      subst h
      simp [← hp]
    · simp [lookupJob, hp] at h
      exact List.mem_cons_of_mem _ (ih h)

/-! ## Lemmas about `applyStatusChange` -/

theorem applyStatusChange_status (tj : TrackedJob) (st : JobStatus) (pr : Option Rat)
    (now : Nat) : (applyStatusChange tj st pr now).status = st := by
  cases st <;> cases pr <;> rfl

theorem applyStatusChange_progress (tj : TrackedJob) (st : JobStatus) (p : Rat)
    (now : Nat) : (applyStatusChange tj st (some p) now).progress = p := by
  cases st <;> rfl

theorem applyStatusChange_stampOf (tj : TrackedJob) (st s : JobStatus) (pr : Option Rat)
    (now : Nat) (hs : s = .Completed ∨ s = .Stopped ∨ s = .Finished) :
    stampOf s (applyStatusChange tj st pr now) =
      if st = s then some now else stampOf s tj := by
  rcases hs with rfl | rfl | rfl <;> cases st <;> cases pr <;>
    simp [applyStatusChange, stampOf]

/-! ## Lemmas about runs of tracker commands -/

theorem runOps_append (t : JobTracker) (l1 l2 : List (TrackerOp × Nat)) :
    runOps t (l1 ++ l2) = runOps (runOps t l1) l2 := by
  induction l1 generalizing t with
  | nil => rfl
  | cons x rest ih =>
    rcases x with ⟨op, now⟩
    exact ih (applyOp t op now)

theorem noReinsert_append (t : JobTracker) (l1 l2 : List (TrackerOp × Nat)) :
    noReinsert t (l1 ++ l2) = (noReinsert t l1 && noReinsert (runOps t l1) l2) := by
  induction l1 generalizing t with
  | nil => simp [noReinsert, runOps]
  | cons x rest ih =>
    rcases x with ⟨op, now⟩
    cases op with
    | insert j => simp [noReinsert, runOps, ih, Bool.and_assoc]
    | updateStatus uid st pr => simp [noReinsert, runOps, ih]

theorem everHad_append (t : JobTracker) (l : List (TrackerOp × Nat)) (x : TrackerOp × Nat)
    (id : String) (s : JobStatus) :
    everHad t (l ++ [x]) id s =
      (everHad t l id s || statusIs (runOps t (l ++ [x])) id s) := by
  induction l generalizing t with
  | nil =>
    rcases x with ⟨op, now⟩
    simp [everHad, runOps]
  | cons y rest ih =>
    rcases y with ⟨op, now⟩
    simp [everHad, runOps, ih, Bool.or_assoc]

theorem everHad_of_statusIs_final (t : JobTracker) (l : List (TrackerOp × Nat))
    (id : String) (s : JobStatus) (h : statusIs (runOps t l) id s = true) :
    everHad t l id s = true := by
  induction l generalizing t with
  | nil => exact h
  | cons y rest ih =>
    rcases y with ⟨op, now⟩
    simp only [everHad, Bool.or_eq_true]
    exact Or.inr (ih _ h)

theorem lookup_none_applyOp (t : JobTracker) (op : TrackerOp) (now : Nat) (id : String)
    (h : lookupJob (applyOp t op now).jobs id = none) : lookupJob t.jobs id = none := by
  cases op with
  | insert j =>
    simp only [applyOp, JobTracker.insert] at h
    rw [lookup_assocInsert] at h
    by_cases hq : id = j.jobId
    · rw [if_pos hq] at h; cases h
    · rwa [if_neg hq] at h
  | updateStatus uid st pr =>
    rcases hl : lookupJob t.jobs uid with _ | tj
    · simpa [applyOp, JobTracker.update_status, hl] using h
    · simp only [applyOp, JobTracker.update_status, hl] at h
      rw [lookup_assocInsert] at h
      by_cases hq : id = uid
      · rw [if_pos hq] at h; cases h
      · rwa [if_neg hq] at h

theorem lookup_none_runOps (t : JobTracker) (l : List (TrackerOp × Nat)) (id : String)
    (h : lookupJob (runOps t l).jobs id = none) : lookupJob t.jobs id = none := by
  induction l generalizing t with
  | nil => exact h
  | cons y rest ih =>
    rcases y with ⟨op, now⟩
    exact lookup_none_applyOp t op now id (ih _ h)

theorem everHad_eq_false_of_lookup_none (t : JobTracker) (l : List (TrackerOp × Nat))
    (id : String) (s : JobStatus) (h : lookupJob (runOps t l).jobs id = none) :
    everHad t l id s = false := by
  induction l generalizing t with
  | nil => simp [everHad, statusIs, show lookupJob t.jobs id = none from h]
  | cons y rest ih =>
    rcases y with ⟨op, now⟩
    have h1 : lookupJob (applyOp t op now).jobs id = none := lookup_none_runOps _ rest id h
    have h0 : lookupJob t.jobs id = none := lookup_none_applyOp _ _ _ _ h1
    simp [everHad, statusIs, h0, ih _ h]

/-! ## Concrete registries used in closed evaluations -/

/-- A registry holding job "a" in status Completed (inserted at time 0,
completed at time 1). -/
def tCompletedA : JobTracker :=
  runOps JobTracker.new [(.insert jobA, 0), (.updateStatus "a" .Completed none, 1)]

/-- A registry holding jobs "a" and "b", both Running. -/
def tTwoRunning : JobTracker :=
  runOps JobTracker.new
    [(.insert jobA, 0), (.insert jobB, 0),
     (.updateStatus "a" .Running none, 1), (.updateStatus "b" .Running none, 1)]

/-- A registry holding job "a" Running with progress 1. -/
def tPriorProgress : JobTracker :=
  runOps JobTracker.new [(.insert jobA, 0), (.updateStatus "a" .Running (some 1), 1)]

/-- A registry holding only the freshly inserted Pending job "a". -/
def tPendingA : JobTracker := JobTracker.new.insert jobA 0

/-! ## C1 -/

/-- C1: the claim says the Tracker rejects transitions that are not edges of
the section-3 state machine (for example Completed to Running) with an error
and leaves the job unchanged. The code applies them: starting from job "a" in
status Completed, `update_status("a", Running)` returns `Ok` and the recorded
status becomes Running. -/
theorem C1_code_behavior :
    statusOf tCompletedA "a" = some .Completed ∧
    (JobTracker.update_status tCompletedA "a" .Running none 2).toOption.map
        (fun t => statusOf t "a") = some (some .Running) := by
  decide

/-! ## C2 -/

/-- The command sequence insert "a", set Running. -/
def opsC2a : List (TrackerOp × Nat) :=
  [(.insert jobA, 0), (.updateStatus "a" .Running none, 1)]

/-- The same sequence followed by a duplicate insert of "a". -/
def opsC2b : List (TrackerOp × Nat) := opsC2a ++ [(.insert jobA, 2)]

/-- C2 counterexample: the claim says a second Insert with the same id is
dropped and does not overwrite the TrackedJob. In the code a second Insert
replaces the entry: after insert "a"; set Running; insert "a" the status is
Pending again (and the registry differs from the one without the duplicate
insert), so the second Insert did overwrite. -/
theorem C2_counterexample :
    statusOf (runOps JobTracker.new opsC2a) "a" = some .Running ∧
    statusOf (runOps JobTracker.new opsC2b) "a" = some .Pending ∧
    JobStatus.Pending ≠ JobStatus.Running := by
  decide

/-- C2 amended: a second Insert with the same id is applied, not dropped — it
overwrites the entry with a fresh Pending TrackedJob (progress 0, startTime
of the second Insert, all lifecycle timestamps cleared), so two consecutive
Inserts with the same id equal a single Insert at the second timestamp. -/
theorem C2_amended_insert_overwrites (t : JobTracker) (j : Job) (n1 n2 : Nat) :
    JobTracker.insert (JobTracker.insert t j n1) j n2 = JobTracker.insert t j n2 ∧
    (JobTracker.insert t j n1).get_job j.jobId =
      some { job := j, status := .Pending, progress := 0, start_time := n1,
             completed_time := none, stopped_time := none, finished_time := none } := by
  constructor
  · simp [JobTracker.insert, assocInsert_assocInsert_self]
  · simp [JobTracker.insert, JobTracker.get_job, lookup_assocInsert]

/-! ## C3 -/

/-- C3: the claim says that when the running-job count is greater than or
equal to `max_concurrent_jobs` the poller contacts no one and issues no
Insert or Execute. The code's admission check is strict (`count > max`), so
with count equal to max (here both 2) the iteration still polls and sends
Insert and Execute for the fetched job. -/
theorem C3_code_behavior :
    JobTracker.count_running_jobs tTwoRunning = 2 ∧
    control_server_poller_iteration (JobTracker.count_running_jobs tTwoRunning) 2
        (.ok [jobC]) = [.sendInsert jobC, .sendExecute jobC, .sleep] := by
  decide

/-! ## C6 -/

/-- C6: the claim says that whenever every port of the range is reserved the
next `reserve()` fails with `OutOfPorts` — including for ranges ending at
65535 such as the default one. The code increments a `u16`: with the
single-port range [65535, 65535] fully reserved, the scan wraps to port 0,
which is unreserved, and `reserve_port` returns `Ok(0)` — a port outside the
range — instead of `OutOfPorts`. -/
theorem C6_code_behavior :
    PortManager.reserve_port ⟨65535, 65535, [65535]⟩ =
      some (.ok (0, ⟨65535, 65535, [0, 65535]⟩)) := by
  rfl

/-! ## C9 -/

/-- C9: the claim says that when the Tracker's UpdateStatus errors, the PUT
handler observes the error and responds 500. The channel wrapper
`update_job_status` discards the tracker's inner `Result`: with job "a"
visible at GetJob time but the UpdateStatus command served from a registry
not holding "a" (so the tracker replies "Invalid job id"), the handler still
responds 200 "OK". -/
theorem C9_code_behavior :
    JobTracker.update_status JobTracker.new "a" .Completed (some 1) 5 =
      .error "Invalid job id" ∧
    (put_job_handler "a" (some "COMPLETED") (some (some 1)) tPendingA
        JobTracker.new true 5).code = 200 ∧
    (put_job_handler "a" (some "COMPLETED") (some (some 1)) tPendingA
        JobTracker.new true 5).msg = "OK" :=
  ⟨rfl, rfl, rfl⟩

/-! ## C8 -/

/-- C8 counterexample: the claim says an absent `X-Foreman-Job-Progress`
header leaves the previously recorded progress unchanged. The code defaults
the missing header to 0.0 and passes `Some(0.0)` to the Tracker: job "a" has
progress 1 before the request and progress 0 after it. -/
theorem C8_counterexample :
    progressOf tPriorProgress "a" = some 1 ∧
    progressOf (put_job_handler "a" (some "COMPLETED") none tPriorProgress tPriorProgress
        true 2).tracker "a" = some 0 ∧
    (1 : Rat) ≠ 0 :=
  ⟨rfl, rfl, one_ne_zero⟩

/-! ## C7 -/

/-- Insert "a", complete it, then insert it again. -/
def opsC7 : List (TrackerOp × Nat) :=
  [(.insert jobA, 0), (.updateStatus "a" .Completed none, 1), (.insert jobA, 2)]

/-- C7 counterexample: the claim says `completedTime` is set iff the job has
ever been Completed, over any sequence of Insert and UpdateStatus commands.
After insert "a"; complete "a"; insert "a" the job has been Completed at some
point, yet the duplicate Insert cleared `completed_time`. -/
theorem C7_counterexample :
    everHad JobTracker.new opsC7 "a" .Completed = true ∧
    stampIsSome (runOps JobTracker.new opsC7) "a" .Completed = false := by
  decide

/-- C7 amended: over any sequence of Insert and UpdateStatus commands from an
empty registry in which no Insert re-inserts an already-tracked id, the
Completed stamp is set iff the job has ever been Completed; similarly for the
Stopped and Finished stamps. (The unamended claim fails only because a
duplicate Insert overwrites the entry and clears the stamps.) -/
theorem C7_amended_stamp_iff_ever (ops : List (TrackerOp × Nat)) (id : String)
    (s : JobStatus) (hops : noReinsert JobTracker.new ops = true)
    (hs : s = .Completed ∨ s = .Stopped ∨ s = .Finished) :
    stampIsSome (runOps JobTracker.new ops) id s = everHad JobTracker.new ops id s := by
  revert hops
  induction ops using List.reverseRecOn with
  | nil => intro _; rfl
  | append_singleton l x ih =>
    intro hops
    rw [noReinsert_append, Bool.and_eq_true] at hops
    obtain ⟨h1, h2⟩ := hops
    have hIH := ih h1
    rw [everHad_append, runOps_append]
    rcases x with ⟨op, now⟩
    have unchanged : ∀ t' : JobTracker,
        lookupJob t'.jobs id = lookupJob (runOps JobTracker.new l).jobs id →
        stampIsSome t' id s = (everHad JobTracker.new l id s || statusIs t' id s) := by
      intro t' hlook
      have hstat : statusIs t' id s = statusIs (runOps JobTracker.new l) id s := by
        simp [statusIs, hlook]
      have hstamp : stampIsSome t' id s = stampIsSome (runOps JobTracker.new l) id s := by
        simp [stampIsSome, hlook]
      rw [hstat, hstamp, hIH]
      cases hfin : statusIs (runOps JobTracker.new l) id s with
      | true => simp [everHad_of_statusIs_final _ _ _ _ hfin]
      | false => simp
    show stampIsSome (applyOp (runOps JobTracker.new l) op now) id s =
      (everHad JobTracker.new l id s ||
        statusIs (applyOp (runOps JobTracker.new l) op now) id s)
    cases op with
    | insert j =>
      simp only [noReinsert, Bool.and_eq_true] at h2
      have hnone : lookupJob (runOps JobTracker.new l).jobs j.jobId = none := by
        rcases hl : lookupJob (runOps JobTracker.new l).jobs j.jobId with _ | tj
        · rfl
        · rw [hl] at h2; simp at h2
      by_cases hid : id = j.jobId
      · subst hid
        have hev : everHad JobTracker.new l j.jobId s = false :=
          everHad_eq_false_of_lookup_none _ _ _ _ hnone
        rw [hev]
        rcases hs with rfl | rfl | rfl <;>
          simp [applyOp, JobTracker.insert, stampIsSome, statusIs, lookup_assocInsert,
            stampOf]
      · apply unchanged
        simp [applyOp, JobTracker.insert, lookup_assocInsert, hid]
    | updateStatus uid st pr =>
      rcases hl : lookupJob (runOps JobTracker.new l).jobs uid with _ | tj
      · apply unchanged
        simp [applyOp, JobTracker.update_status, hl]
      · by_cases hid : id = uid
        · subst hid
          have hstamp : stampIsSome (applyOp (runOps JobTracker.new l)
              (.updateStatus id st pr) now) id s =
              (if st = s then (some now : Option Nat) else stampOf s tj).isSome := by
            simp [applyOp, JobTracker.update_status, hl, stampIsSome, lookup_assocInsert,
              applyStatusChange_stampOf _ _ _ _ _ hs]
          have hstat : statusIs (applyOp (runOps JobTracker.new l)
              (.updateStatus id st pr) now) id s = decide (st = s) := by
            simp [applyOp, JobTracker.update_status, hl, statusIs, lookup_assocInsert,
              applyStatusChange_status]
          have hev : everHad JobTracker.new l id s = (stampOf s tj).isSome := by
            rw [← hIH]; simp [stampIsSome, hl]
          rw [hstamp, hstat, hev]
          by_cases hsts : st = s
          · simp [hsts]
          · simp [hsts]
        · apply unchanged
          simp [applyOp, JobTracker.update_status, hl, lookup_assocInsert, hid]

/-- Witness for the amended C7 theorem: insert "a" then complete it — a run
with no duplicate insert — and the Completed stamp agrees with the history. -/
theorem C7_amended_witness :
    noReinsert JobTracker.new
        [(.insert jobA, 0), (.updateStatus "a" .Completed none, 1)] = true ∧
    stampIsSome (runOps JobTracker.new
        [(.insert jobA, 0), (.updateStatus "a" .Completed none, 1)]) "a" .Completed =
      everHad JobTracker.new
        [(.insert jobA, 0), (.updateStatus "a" .Completed none, 1)] "a" .Completed :=
  ⟨by decide, C7_amended_stamp_iff_ever _ "a" .Completed (by decide) (Or.inl rfl)⟩

/-! ## C10 -/

theorem stoppedStampOk_applyOp (t : JobTracker) (op : TrackerOp) (now : Nat)
    (h : stoppedStampOk t = true) : stoppedStampOk (applyOp t op now) = true := by
  simp only [stoppedStampOk, List.all_eq_true] at h ⊢
  intro p hp
  cases op with
  | insert j =>
    simp only [applyOp, JobTracker.insert] at hp
    rcases mem_assocInsert _ _ _ _ hp with h' | h'
    · subst h'; simp
    · exact h _ h'
  | updateStatus uid st pr =>
    rcases hl : lookupJob t.jobs uid with _ | tj
    · simp only [applyOp, JobTracker.update_status, hl] at hp
      exact h _ hp
    · simp only [applyOp, JobTracker.update_status, hl] at hp
      rcases mem_assocInsert _ _ _ _ hp with h' | h'
      · subst h'
        cases st <;> cases pr <;> simp [applyStatusChange]
      · exact h _ h'

theorem stoppedStampOk_runOps (ops : List (TrackerOp × Nat)) (t : JobTracker)
    (h : stoppedStampOk t = true) : stoppedStampOk (runOps t ops) = true := by
  induction ops generalizing t with
  | nil => exact h
  | cons x rest ih =>
    rcases x with ⟨op, now⟩
    exact ih _ (stoppedStampOk_applyOp t op now h)

theorem stoppedExpiredAux_isSome (now timeout : Nat) (l : List (String × TrackedJob))
    (h : ∀ p ∈ l, p.2.status = .Stopped → p.2.stopped_time.isSome = true) :
    (stoppedExpiredAux now timeout l).isSome = true := by
  induction l with
  | nil => rfl
  | cons p rest ih =>
    rcases p with ⟨id, tj⟩
    have hrest := ih fun q hq hqs => h q (List.mem_cons_of_mem _ hq) hqs
    simp only [stoppedExpiredAux]
    by_cases hst : tj.status = .Stopped
    · rw [if_pos hst]
      rcases hstop : tj.stopped_time with _ | stamp
      · have := h (id, tj) (by simp) hst
        rw [hstop] at this
        cases this
      · rcases hr : stoppedExpiredAux now timeout rest with _ | ids
        · rw [hr] at hrest; cases hrest
        · by_cases h1 : now < stamp
          · simp [h1]
          · by_cases h2 : now - stamp > timeout <;> simp [h1, h2]
    · rw [if_neg hst]
      exact hrest

/-- C10: every reachable registry (any sequence of Insert and UpdateStatus
commands from the empty registry) keeps `stopped_time` set on every job whose
status is Stopped — `insert` creates jobs Pending with no stamp and
`update_status` stamps `stopped_time` whenever it sets status Stopped — and
therefore `get_stopped_and_expired_job_ids` never reaches its panicking
`stopped_time.unwrap()` on a Stopped job (the model returns `none` exactly at
that panic, and it is always `some`). -/
theorem C10_stopped_implies_stamped (ops : List (TrackerOp × Nat)) (now timeout : Nat) :
    stoppedStampOk (runOps JobTracker.new ops) = true ∧
    ((runOps JobTracker.new ops).get_stopped_and_expired_job_ids now timeout).isSome
      = true := by
  have h := stoppedStampOk_runOps ops JobTracker.new rfl
  refine ⟨h, ?_⟩
  apply stoppedExpiredAux_isSome
  simp only [stoppedStampOk, List.all_eq_true] at h
  intro p hp hs
  have hb := h p hp
  simpa [hs] using hb

/-! ## C4 -/

/-- C4: for a PUT on a tracked job (valid status header), the callback
forward is the first effect — any Tracker update comes after it — and when
the callback forward fails at the HTTP client level the handler responds 400,
sends no Tracker update, and returns the registry untouched. -/
theorem C4_callback_before_update (jid s : String) (ph : Option (Option Rat))
    (t_get t_upd : JobTracker) (cb : Bool) (now : Nat) (tj : TrackedJob)
    (st : JobStatus) (hjob : lookupJob t_get.jobs jid = some tj)
    (hst : JobStatus.from_str s = .ok st) :
    (∃ rest, (put_job_handler jid (some s) ph t_get t_upd cb now).trace =
        PutEffect.callbackPut tj.job.callbackUrl :: rest) ∧
    (cb = false →
      (put_job_handler jid (some s) ph t_get t_upd cb now).code = 400 ∧
      (put_job_handler jid (some s) ph t_get t_upd cb now).tracker = t_upd ∧
      (put_job_handler jid (some s) ph t_get t_upd cb now).trace =
        [PutEffect.callbackPut tj.job.callbackUrl]) := by
  cases cb
  · constructor
    · exact ⟨[], by simp [put_job_handler, hst, hjob]⟩
    · intro _
      refine ⟨?_, ?_, ?_⟩ <;> simp [put_job_handler, hst, hjob]
  · constructor
    · rcases hu : update_job_status t_upd jid st
          (some ((match ph with | some op => op | none => none).getD 0)) now with ⟨r, t'⟩
      cases r with
      | error e =>
        exact ⟨[.trackerUpdate jid st
            (some ((match ph with | some op => op | none => none).getD 0))],
          by simp [put_job_handler, hst, hjob, hu]⟩
      | ok u =>
        exact ⟨[.trackerUpdate jid st
            (some ((match ph with | some op => op | none => none).getD 0))],
          by simp [put_job_handler, hst, hjob, hu]⟩
    · intro hfalse
      cases hfalse

/-- Witness for C4: job "a" tracked and Pending, valid "RUNNING" header,
callback forward fails: response 400, registry untouched, trace is just the
callback attempt. -/
theorem C4_witness :
    (∃ rest, (put_job_handler "a" (some "RUNNING") none tPendingA tPendingA
        false 5).trace = PutEffect.callbackPut "http://cb/a" :: rest) ∧
    (put_job_handler "a" (some "RUNNING") none tPendingA tPendingA false 5).code = 400 ∧
    (put_job_handler "a" (some "RUNNING") none tPendingA tPendingA false 5).tracker
      = tPendingA := by
  have h := C4_callback_before_update "a" "RUNNING" none tPendingA tPendingA false 5
    ⟨jobA, .Pending, 0, 0, none, none, none⟩ .Running rfl rfl
  exact ⟨h.1, (h.2 rfl).1, (h.2 rfl).2.1⟩

/-! ## C5 -/

/-- C5: the GET handler answers 404 with the not-found error body when the id
is untracked; 403 with the refusing error body when the job is Completed; for
a Pending job it first moves the job to Running with progress 0 through the
Tracker and then answers 200 with the job's id and body; and for Running,
Stopped and Finished jobs it answers 200 with the job's id and body, leaving
the registry untouched. -/
theorem C5_get_handler_spec (t : JobTracker) (jid : String) (now : Nat) :
    (lookupJob t.jobs jid = none →
      get_job_handler jid t now = ((404, .errNotFound), t)) ∧
    (∀ tj, lookupJob t.jobs jid = some tj → tj.status = .Completed →
      get_job_handler jid t now = ((403, .errRefuseCompleted), t)) ∧
    (∀ tj, lookupJob t.jobs jid = some tj → tj.status = .Pending →
      tj.job.jobId = jid →
      (get_job_handler jid t now).1 = (200, .payload jid tj.job.jobBody) ∧
      statusOf (get_job_handler jid t now).2 jid = some .Running ∧
      progressOf (get_job_handler jid t now).2 jid = some 0) ∧
    (∀ tj, lookupJob t.jobs jid = some tj →
      (tj.status = .Running ∨ tj.status = .Stopped ∨ tj.status = .Finished) →
      get_job_handler jid t now = ((200, .payload tj.job.jobId tj.job.jobBody), t)) := by
  refine ⟨?_, ?_, ?_, ?_⟩
  · intro h
    simp [get_job_handler, h]
  · intro tj h hs
    simp [get_job_handler, h, hs]
  · intro tj h hs hid
    have hupd : JobTracker.update_status t jid .Running (some 0) now =
        .ok ⟨assocInsert t.jobs jid (applyStatusChange tj .Running (some 0) now)⟩ := by
      simp [JobTracker.update_status, h]
    refine ⟨?_, ?_, ?_⟩ <;>
      simp [get_job_handler, h, hs, update_job_status, hupd, statusOf, progressOf,
        lookup_assocInsert, applyStatusChange_status, applyStatusChange_progress, hid]
  · intro tj h hs
    rcases hs with hs | hs | hs <;> simp [get_job_handler, h, hs]

/-- Witness for C5: an untracked id answers 404, and a Pending job "a"
answers 200 with its body and is moved to Running. -/
theorem C5_witness :
    get_job_handler "zzz" JobTracker.new 3 = ((404, .errNotFound), JobTracker.new) ∧
    (get_job_handler "a" tPendingA 3).1 = (200, .payload "a" "body-a") ∧
    statusOf (get_job_handler "a" tPendingA 3).2 "a" = some .Running := by
  have h1 := (C5_get_handler_spec JobTracker.new "zzz" 3).1 rfl
  have h2 := (C5_get_handler_spec tPendingA "a" 3).2.2.1
    ⟨jobA, .Pending, 0, 0, none, none, none⟩ rfl rfl rfl
  exact ⟨h1, h2.1, h2.2.1⟩

/-! ## C8 (amended) -/

/-- C8 amended: when `X-Foreman-Job-Progress` is absent or unparseable the
handler does not treat the progress as unset — it defaults it to 0.0 and
passes `Some(0.0)` to the Tracker, so after a PUT whose callback forward
succeeds the job's recorded progress is 0 (prior progress is clobbered). -/
theorem C8_amended_progress_clobbered (jid s : String) (ph : Option (Option Rat))
    (t_get t_upd : JobTracker) (now : Nat) (tj tj2 : TrackedJob) (st : JobStatus)
    (hph : ph = none ∨ ph = some none) (hst : JobStatus.from_str s = .ok st)
    (hget : lookupJob t_get.jobs jid = some tj)
    (hupd : lookupJob t_upd.jobs jid = some tj2) :
    progressOf (put_job_handler jid (some s) ph t_get t_upd true now).tracker jid
      = some 0 := by
  have hu : JobTracker.update_status t_upd jid st (some 0) now =
      .ok ⟨assocInsert t_upd.jobs jid (applyStatusChange tj2 st (some 0) now)⟩ := by
    simp [JobTracker.update_status, hupd]
  rcases hph with rfl | rfl <;>
    simp [put_job_handler, hst, hget, update_job_status, hu, progressOf,
      lookup_assocInsert, applyStatusChange_progress]

/-- Witness for the amended C8: job "a" has progress 1; a PUT with no
progress header resets it to 0. -/
theorem C8_amended_witness :
    progressOf (put_job_handler "a" (some "RUNNING") none tPriorProgress tPriorProgress
        true 2).tracker "a" = some 0 :=
  C8_amended_progress_clobbered "a" "RUNNING" none tPriorProgress tPriorProgress 2
    ⟨jobA, .Running, 1, 0, none, none, none⟩
    ⟨jobA, .Running, 1, 0, none, none, none⟩ .Running (Or.inl rfl) rfl rfl rfl
